import Mathlib

/-!
Verification of the secure-channel library (KeyExchange, Signature, codec helpers).

The TypeScript source is shallowly embedded:
* byte arrays (`Uint8Array`) become `List Nat`, every entry `< 256`; a write into a
  `Uint8Array` cell stores the value modulo 256 (`ToUint8` semantics);
* base64 text becomes `String` via an explicit standard-alphabet encoder/decoder
  (matching `btoa`/`atob` and `Buffer` on well-formed input);
* the Web-Crypto provider (`SubtleCrypto`) becomes a record of abstract
  deterministic functions returning `Except String _`; provider randomness is
  modelled by indexing key generation with an entropy counter held in the state;
* `async` methods become pure state-passing functions returning
  `state × Except err result`; a thrown exception is an `Except.error`, with the
  state at the moment of the throw returned alongside it;
* the lazily initialized singleton (`getInstance`) becomes a small-step
  interleaving machine whose suspension points are the `await`s of the source.
-/

namespace SecureChannel

/-- The standard base64 alphabet, as used by `btoa` / `Buffer.toString("base64")`. -/
def b64Alphabet : List Char :=
  "ABCDEFGHIJKLMNOPQRSTUVWXYZabcdefghijklmnopqrstuvwxyz0123456789+/".data

/-- The character encoding a 6-bit group. -/
def sextetToChar (s : Nat) : Char := b64Alphabet.getD s 'A'

/-- The 6-bit group a base64 character denotes, `none` for characters outside the
alphabet (including the padding character). -/
def charToSextet (c : Char) : Option Nat := b64Alphabet.findIdx? (· = c)

/-- Standard base64 encoding of a byte list: three bytes per four characters,
`=`-padded tail groups. -/
def b64EncGroups : List Nat → List Char
  | b1 :: b2 :: b3 :: rest =>
      sextetToChar (b1 / 4) :: sextetToChar (b1 % 4 * 16 + b2 / 16) ::
      sextetToChar (b2 % 16 * 4 + b3 / 64) :: sextetToChar (b3 % 64) :: b64EncGroups rest
  | [b1, b2] =>
      [sextetToChar (b1 / 4), sextetToChar (b1 % 4 * 16 + b2 / 16),
       sextetToChar (b2 % 16 * 4), '=']
  | [b1] =>
      [sextetToChar (b1 / 4), sextetToChar (b1 % 4 * 16), '=', '=']
  | [] => []

/-- Standard base64 decoding: four characters per three bytes, a final `=` or `==`
marking a two- or one-byte tail group. Returns `none` on malformed input. -/
def b64DecGroups : List Char → Option (List Nat)
  | [] => some []
  | c1 :: c2 :: c3 :: c4 :: rest =>
      match charToSextet c1, charToSextet c2 with
      | some s1, some s2 =>
        if c3 = '=' then
          if c4 = '=' ∧ rest = [] then some [s1 * 4 + s2 / 16] else none
        else
          match charToSextet c3 with
          | some s3 =>
            if c4 = '=' then
              if rest = [] then some [s1 * 4 + s2 / 16, s2 % 16 * 16 + s3 / 4] else none
            else
              match charToSextet c4 with
              | some s4 =>
                (b64DecGroups rest).map
                  (fun tl => (s1 * 4 + s2 / 16) :: (s2 % 16 * 16 + s3 / 4) ::
                             (s3 % 4 * 64 + s4) :: tl)
              | none => none
          | none => none
      | _, _ => none
  | _ => none

/-- `byteArrayToBase64` of `helpers.ts`: byte array to padded standard base64 text. -/
def byteArrayToBase64 (bytes : List Nat) : String := String.mk (b64EncGroups bytes)

/-- The byte list a base64 string denotes, `none` on malformed input.  Backs the
decoding half of the codec helpers (`atob`/`Buffer.from(⬝, "base64")` agree with
it on the well-formed strings the encoder produces). -/
def base64DecodeBytes (s : String) : Option (List Nat) := b64DecGroups s.data

/-- `base64StringToByteArr` of `helpers.ts`: empty input maps to the empty array;
otherwise the base64 decoding. -/
def base64StringToByteArr (s : String) : List Nat := (b64DecGroups s.data).getD []

/-- Every byte of a list is below 256 (the `Uint8Array` content invariant). -/
def allBytes (bs : List Nat) : Prop := ∀ b ∈ bs, b < 256

/-- Big-endian fixed-width byte encoding of a natural number (`DataView.setBigUint64`
and the byte construction of `uint32ToBytes`): most significant byte first. -/
def natToBeBytes : Nat → Nat → List Nat
  | 0, _ => []
  | k + 1, n => natToBeBytes k (n / 256) ++ [n % 256]

/-- Big-endian byte decoding (`DataView.getBigUint64` / the shift-and-or of
`base64ToUint32`). -/
def beBytesToNat (bs : List Nat) : Nat := bs.foldl (fun acc b => acc * 256 + b) 0

/-- `bigIntToBase64` of `helpers.ts`: range-check to uint64, 8-byte big-endian
encoding, base64. A `RangeError` throw is the `Except.error`. -/
def bigIntToBase64 (n : Int) : Except String String :=
  if n < 0 ∨ 0xFFFFFFFFFFFFFFFF < n then .error "value out of uint64 range"
  else .ok (byteArrayToBase64 (natToBeBytes 8 n.toNat))

/-- `base64ToBigInt` of `helpers.ts`: reject the empty string, base64-decode,
require exactly 8 bytes, big-endian decode. -/
def base64ToBigInt (s : String) : Except String Int :=
  if s = "" then .error "Empty base64 string"
  else
    match b64DecGroups s.data with
    | none => .error "Invalid base64 string"
    | some bytes =>
      if bytes.length = 8 then .ok (beBytesToNat bytes)
      else .error "Expected 8 bytes for uint64"

/-- `uint32ToBase64` of `helpers.ts`: range-check to uint32, big-endian bytes by
shifting and masking, base64. -/
def uint32ToBase64 (n : Int) : Except String String :=
  if n < 0 ∨ 4294967295 < n then .error "Number must be a valid uint32"
  else
    .ok (byteArrayToBase64
      [n.toNat / 2 ^ 24 % 256, n.toNat / 2 ^ 16 % 256, n.toNat / 2 ^ 8 % 256,
       n.toNat % 256])

/-- `base64ToUint32` of `helpers.ts`: base64-decode, require exactly 4 bytes,
recombine with shifts; `>>> 0` is the modulo `2^32` of the recombination. -/
def base64ToUint32 (s : String) : Except String Int :=
  match b64DecGroups s.data with
  | none => .error "Invalid base64 string"
  | some [b0, b1, b2, b3] =>
      .ok (((b0 * 2 ^ 24 + b1 * 2 ^ 16 + b2 * 2 ^ 8 + b3) % 2 ^ 32 : Nat))
  | some _ => .error "Base64 must represent exactly 4 bytes"

/-- C6: for every integer `n` with `0 ≤ n ≤ 2^64 - 1`,
`base64ToBigInt (bigIntToBase64 n) = n`, and `bigIntToBase64` throws a
`RangeError` for every `n < 0` and every `n > 2^64 - 1`. -/
inductive CopySource where
  | str (codeUnits : List Nat)
  | bytes (b : List Nat)

/-- The string branch of `copyToBuffer`: per character, first check
`offset >= dest.length` (throw on overflow), then `dest[offset++] = charCodeAt(i)`
(a `Uint8Array` store keeps the value modulo 256).  Returns the destination as
mutated so far together with the new offset or the thrown error. -/
def copyStrLoop : List Nat → Nat → List Nat → List Nat × Except String Nat
  | dest, offset, [] => (dest, .ok offset)
  | dest, offset, u :: rest =>
      if dest.length ≤ offset then
        (dest, .error "Buffer overflow: cannot write beyond buffer length")
      else copyStrLoop (dest.set offset (u % 256)) (offset + 1) rest

/-- The `Uint8Array` branch of `copyToBuffer` after its up-front capacity check:
`for (const byte of source) dest[offset++] = byte`. -/
def copyBytesLoop : List Nat → Nat → List Nat → List Nat × Nat
  | dest, offset, [] => (dest, offset)
  | dest, offset, b :: rest => copyBytesLoop (dest.set offset (b % 256)) (offset + 1) rest

/-- `copyToBuffer` of `helpers.ts`.  The offset is an `Int` (a JS number): the
function first throws if `offset < 0 || offset >= dest.length`; the string branch
then copies code unit by code unit with a per-write bound check, while the byte
branch checks `offset + source.length > dest.length` before writing anything.
The returned list is the destination as left by the call (mutations before a
throw included). -/
def copyToBuffer (dest : List Nat) (offset : Int) (source : CopySource) :
    List Nat × Except String Nat :=
  if offset < 0 ∨ (dest.length : Int) ≤ offset then
    (dest, .error "Offset is out of bounds for buffer length")
  else
    match source with
    | .str us => copyStrLoop dest offset.toNat us
    | .bytes bs =>
        if (dest.length : Int) < offset + bs.length then
          (dest, .error "Buffer overflow: need more bytes than available")
        else
          let r := copyBytesLoop dest offset.toNat bs
          (r.1, .ok r.2)



/-- UTF-8 encoding of a string (`TextEncoder.encode`). -/
def utf8Bytes (s : String) : List Nat :=
  s.data.foldr (fun c acc => (String.utf8EncodeChar c).map (fun b => b.toNat) ++ acc) []

/-- The errors the two components throw.  Each locally thrown `Error` of the
source is its own constructor; an exception surfaced by the capability provider
is `provider` and carries the provider's message. -/
inductive SCErr where
  | cryptoNotInitialized
  | signatureNotInitialized
  | serverKeyNotInitialized
  | noEncryptionKey
  | noDecryptionKey
  | provider (msg : String)
deriving DecidableEq

/-- The capability provider (`SubtleCrypto` of `types.ts`), as a record of
deterministic functions, one per (operation, algorithm) combination the
components use.  Key handles are opaque `Nat`s.  Key generation takes an entropy
index standing for the provider's fresh randomness; each operation may fail with
a provider error message. -/
structure SubtleCrypto where
  generateKeyX25519 : Nat → Except String Nat
  generateKeyEd25519 : Nat → Except String Nat
  exportKeyRaw : Nat → Except String (List Nat)
  deriveBitsX25519 : Nat → Nat → Nat → Except String (List Nat)
  importKeyHkdf : List Nat → Except String Nat
  deriveBitsHkdf : String → List Nat → List Nat → Nat → Nat → Except String (List Nat)
  importKeyAesGcm256 : List Nat → Except String Nat
  importKeyEd25519 : List Nat → Except String Nat
  aesGcmEncrypt : Nat → List Nat → List Nat → Except String (List Nat)
  aesGcmDecrypt : Nat → List Nat → List Nat → Except String (List Nat)
  signEd25519 : Nat → List Nat → Except String (List Nat)
  verifyEd25519 : Nat → List Nat → List Nat → Except String Bool

/-- The mutable instance fields of `KeyExchange`: the capability handle
(present or not), the entropy counter feeding provider key generation, and the
keypair / TX / RX slots. -/
structure KeyExchangeState where
  subtle : Bool
  entropy : Nat
  keypair : Option Nat
  txKey : Option Nat
  rxKey : Option Nat
deriving DecidableEq

/-- `EncryptionResult` of `helpers.ts`. -/
structure EncryptionResult where
  ciphertext : List Nat
  nonce : List Nat
deriving DecidableEq

/-- A `string | Uint8Array` argument; strings are UTF-8 encoded before use. -/
inductive DataInput where
  | str (s : String)
  | bytes (b : List Nat)

/-- The bytes a `string | Uint8Array` argument contributes
(`typeof data === "string" ? new TextEncoder().encode(data) : data`). -/
def dataBytes : DataInput → List Nat
  | .str s => utf8Bytes s
  | .bytes b => b

/-- The defaulted `salt` argument of `KeyExchange.hkdf`: `new Uint8Array(32)`,
i.e. 32 zero bytes. -/
def hkdfDefaultSalt : List Nat := List.replicate 32 0

namespace KeyExchange

/-- `KeyExchange.hkdf`: import the shared secret as an HKDF base key, then
derive 256 bits with SHA-256, the given salt and the given info bytes
(`generateKey` passes the defaulted salt `new Uint8Array(32)`, i.e. 32 zero
bytes, explicitly here). -/
def hkdf (P : SubtleCrypto) (subtle : Bool) (sharedSecret : List Nat)
    (info salt : List Nat) : Except SCErr (List Nat) :=
  if !subtle then .error .cryptoNotInitialized
  else
    match P.importKeyHkdf sharedSecret with
    | .error e => .error (.provider e)
    | .ok baseKey =>
      match P.deriveBitsHkdf "SHA-256" salt info baseKey 256 with
      | .error e => .error (.provider e)
      | .ok raw => .ok raw

/-- `KeyExchange.importAes`: import raw bits as a non-extractable AES-GCM
256-bit key with encrypt/decrypt usages. -/
def importAes (P : SubtleCrypto) (subtle : Bool) (raw : List Nat) : Except SCErr Nat :=
  if !subtle then .error .cryptoNotInitialized
  else
    match P.importKeyAesGcm256 raw with
    | .error e => .error (.provider e)
    | .ok k => .ok k

/-- `KeyExchange.generateKey`: generate a fresh X25519 keypair (storing it),
export and base64-encode its public key, derive a 256-bit shared secret from the
new private key and the supplied remote public key, HKDF-derive and import the
TX key (info `"client-to-server" + publicKxKey`) and then the RX key (info
`"server-to-client" + publicKxKey`), each with the all-zero 32-byte salt, and
return the base64 public key.  Assignments happen in source order, so the state
accompanying an error is exactly what the instance holds at that throw. -/
def generateKey (P : SubtleCrypto) (st : KeyExchangeState) (serverPublicKey : Nat) :
    KeyExchangeState × Except SCErr String :=
  if !st.subtle then (st, .error .cryptoNotInitialized)
  else
    match P.generateKeyX25519 st.entropy with
    | .error e => (st, .error (.provider e))
    | .ok kp =>
      let st1 := { st with keypair := some kp, entropy := st.entropy + 1 }
      match P.exportKeyRaw kp with
      | .error e => (st1, .error (.provider e))
      | .ok pubRaw =>
        let publicKxKey := byteArrayToBase64 pubRaw
        match P.deriveBitsX25519 kp serverPublicKey 256 with
        | .error e => (st1, .error (.provider e))
        | .ok sharedSecret =>
          match hkdf P st1.subtle sharedSecret
              (utf8Bytes ("client-to-server" ++ publicKxKey)) hkdfDefaultSalt with
          | .error e => (st1, .error e)
          | .ok txRaw =>
            match importAes P st1.subtle txRaw with
            | .error e => (st1, .error e)
            | .ok tx =>
              let st2 := { st1 with txKey := some tx }
              match hkdf P st2.subtle sharedSecret
                  (utf8Bytes ("server-to-client" ++ publicKxKey)) hkdfDefaultSalt with
              | .error e => (st2, .error e)
              | .ok rxRaw =>
                match importAes P st2.subtle rxRaw with
                | .error e => (st2, .error e)
                | .ok rx => ({ st2 with rxKey := some rx }, .ok publicKxKey)

/-- `KeyExchange.encrypt`: require a TX key, then the capability handle, then
AES-GCM-encrypt the plaintext bytes under the fresh 12-byte nonce `iv` (the
value `generateRandomBytes 12` returned) and return ciphertext with that nonce.
String plaintext is UTF-8 encoded by the caller-side branch, so plaintext is
taken here as bytes.  The instance state is not modified. -/
def encrypt (P : SubtleCrypto) (st : KeyExchangeState) (iv plaintext : List Nat) :
    Except SCErr EncryptionResult :=
  match st.txKey with
  | none => .error .noEncryptionKey
  | some tx =>
    if !st.subtle then .error .cryptoNotInitialized
    else
      match P.aesGcmEncrypt tx iv plaintext with
      | .error e => .error (.provider e)
      | .ok ct => .ok ⟨ct, iv⟩

/-- `KeyExchange.decrypt`: require an RX key, then the capability handle, then
AES-GCM-decrypt with the supplied nonce; provider failures (including AEAD
authentication failure) propagate.  The instance state is not modified. -/
def decrypt (P : SubtleCrypto) (st : KeyExchangeState) (ciphertext nonce : List Nat) :
    Except SCErr (List Nat) :=
  match st.rxKey with
  | none => .error .noDecryptionKey
  | some rx =>
    if !st.subtle then .error .cryptoNotInitialized
    else
      match P.aesGcmDecrypt rx nonce ciphertext with
      | .error e => .error (.provider e)
      | .ok pt => .ok pt

end KeyExchange

/-- The mutable instance fields of `Signature`: capability handle, own Ed25519
keypair, and the single stored remote verification key. -/
structure SignatureState where
  subtle : Bool
  keypair : Option Nat
  serverPublicKey : Option Nat
deriving DecidableEq

namespace Signature

/-- `Signature.initializeServerKey`: require the capability handle, base64-decode
the supplied key, import it as a non-extractable Ed25519 verify-only key and
store it as the remote verification key.  Provider import failures propagate and
leave the stored key unchanged. -/
def initializeServerKey (P : SubtleCrypto) (st : SignatureState)
    (serverPublicKeyB64 : String) : SignatureState × Except SCErr Unit :=
  if !st.subtle then (st, .error .cryptoNotInitialized)
  else
    match P.importKeyEd25519 (base64StringToByteArr serverPublicKeyB64) with
    | .error e => (st, .error (.provider e))
    | .ok k => ({ st with serverPublicKey := some k }, .ok ())

/-- `Signature.updateServerKey`: the body is exactly
`await this.initializeServerKey(serverPublicKeyB64)`. -/
def updateServerKey (P : SubtleCrypto) (st : SignatureState)
    (serverPublicKeyB64 : String) : SignatureState × Except SCErr Unit :=
  initializeServerKey P st serverPublicKeyB64

/-- `Signature.verify`: throw the server-key error when the capability handle or
the stored remote key is absent (`!this.subtle || !this.serverPublicKey`);
otherwise return the provider's verification verdict, propagating provider
failures. -/
def verify (P : SubtleCrypto) (st : SignatureState) (signatureBytes : List Nat)
    (data : DataInput) : Except SCErr Bool :=
  match st.subtle, st.serverPublicKey with
  | true, some k =>
    match P.verifyEd25519 k signatureBytes (dataBytes data) with
    | .error e => .error (.provider e)
    | .ok b => .ok b
  | _, _ => .error .serverKeyNotInitialized

end Signature

/-- A caller's position inside `getInstance`.  `start` is before the
`initialized` check; `awaitingInit` is suspended at `await this.instance.init()`
(the synchronous slice before it has run: flag checked, instance constructed and
stored, `init` begun); `done` holds the value of `this.instance` read at
`return this.instance!`. -/
inductive CallerPC where
  | start
  | awaitingInit
  | done (ret : Option Nat)
deriving DecidableEq

/-- The static fields of the singleton pattern shared by `Signature` and
`KeyExchange` (`instance`, `initialized`), together with a count of how many
times `init()` has been entered (each run acquires the capability handle and,
for `Signature`, generates the keypair) and a counter producing distinct
instance identities. -/
structure SingletonState where
  instanceSlot : Option Nat
  initialized : Bool
  initCount : Nat
  nextId : Nat
deriving DecidableEq

/-- One scheduler step of a caller inside `getInstance` (identical code in
`Signature.getInstance` and `KeyExchange.getInstance`): the synchronous slice up
to the next suspension point runs atomically.  From `start`: if `initialized`
is set, return `this.instance` at once; otherwise construct a fresh instance
into the static slot, enter `init()` (counted), and suspend at its `await`.
From `awaitingInit`: set `initialized` and return the current `this.instance`. -/
def getInstanceStep (s : SingletonState) (pc : CallerPC) : SingletonState × CallerPC :=
  match pc with
  | .start =>
      if s.initialized then (s, .done s.instanceSlot)
      else
        ({ s with instanceSlot := some s.nextId, nextId := s.nextId + 1,
                  initCount := s.initCount + 1 }, .awaitingInit)
  | .awaitingInit => ({ s with initialized := true }, .done s.instanceSlot)
  | .done r => (s, .done r)

/-- Run two concurrent `getInstance` callers under a schedule: `true` steps
caller A, `false` steps caller B. -/
def runTwo (s : SingletonState) (pcA pcB : CallerPC) :
    List Bool → SingletonState × CallerPC × CallerPC
  | [] => (s, pcA, pcB)
  | true :: rest =>
      let r := getInstanceStep s pcA
      runTwo r.1 r.2 pcB rest
  | false :: rest =>
      let r := getInstanceStep s pcB
      runTwo r.1 pcA r.2 rest

/-- The static state before any `getInstance` call: no instance, flag unset. -/
def initialSingleton : SingletonState := ⟨none, false, 0, 1⟩

/-- A provider whose operations all succeed, with deterministic handles
(the role the jest `mockSubtle` plays in the repository's tests). -/
def mockProvider : SubtleCrypto where
  generateKeyX25519 := fun i => .ok i
  generateKeyEd25519 := fun i => .ok (i + 100)
  exportKeyRaw := fun k => .ok (List.replicate 32 (k % 256))
  deriveBitsX25519 := fun _ _ _ => .ok (List.replicate 32 1)
  importKeyHkdf := fun _ => .ok 7
  deriveBitsHkdf := fun _ _ _ _ _ => .ok [2]
  importKeyAesGcm256 := fun raw => .ok (raw.headD 0)
  importKeyEd25519 := fun raw => .ok raw.length
  aesGcmEncrypt := fun _ _ d => .ok d
  aesGcmDecrypt := fun _ _ d => .ok d
  signEd25519 := fun _ d => .ok d
  verifyEd25519 := fun _ _ _ => .ok true

/-- A provider that distinguishes the two HKDF info strings (the derived raw key
is the first info byte: `'c'` = 99 for `"client-to-server…"`, `'s'` = 115 for
`"server-to-client…"`), fails the AES import of the RX derivation, fails
decryption (an AEAD authentication failure), and verifies signatures as
invalid. -/
def mockFailingProvider : SubtleCrypto where
  generateKeyX25519 := fun i => .ok i
  generateKeyEd25519 := fun i => .ok (i + 100)
  exportKeyRaw := fun k => .ok (List.replicate 32 (k % 256))
  deriveBitsX25519 := fun _ _ _ => .ok (List.replicate 32 1)
  importKeyHkdf := fun _ => .ok 7
  deriveBitsHkdf := fun _ _ info _ _ => .ok [info.headD 0]
  importKeyAesGcm256 := fun raw => if raw = [115] then .error "import failed" else .ok (raw.headD 0)
  importKeyEd25519 := fun raw => .ok raw.length
  aesGcmEncrypt := fun _ _ d => .ok d
  aesGcmDecrypt := fun _ _ _ => .error "OperationError"
  signEd25519 := fun _ d => .ok d
  verifyEd25519 := fun _ _ _ => .ok false

/-- C1 (code evidence): under the schedule in which both first-time callers pass
the `initialized` check before either `init()` resolves, `init()` runs twice —
two capability acquisitions / keypair generations — although both callers
resolve to the same (second) instance.  The claim requires exactly one
initialization, so the code violates it. -/
theorem charToSextet_sextetToChar : ∀ s < 64, charToSextet (sextetToChar s) = some s := by
  decide

theorem sextetToChar_ne_pad : ∀ s < 64, sextetToChar s ≠ '=' := by
  decide

theorem b64DecGroups_encGroups :
    ∀ bs : List Nat, allBytes bs → b64DecGroups (b64EncGroups bs) = some bs := by
  intro bs
  induction bs using b64EncGroups.induct with
  | case1 b1 b2 b3 rest ih =>
    intro h
    have hb1 : b1 < 256 := h _ (by simp)
    have hb2 : b2 < 256 := h _ (by simp)
    have hb3 : b3 < 256 := h _ (by simp)
    have h1 := charToSextet_sextetToChar (b1 / 4) (by omega)
    have h2 := charToSextet_sextetToChar (b1 % 4 * 16 + b2 / 16) (by omega)
    have h3 := charToSextet_sextetToChar (b2 % 16 * 4 + b3 / 64) (by omega)
    have h4 := charToSextet_sextetToChar (b3 % 64) (by omega)
    have hne := sextetToChar_ne_pad (b2 % 16 * 4 + b3 / 64) (by omega)
    have hne4 := sextetToChar_ne_pad (b3 % 64) (by omega)
    have hrest := ih (fun b hb => h b (by simp [hb]))
    simp [b64EncGroups, b64DecGroups, h1, h2, h3, h4, hrest, hne, hne4]
    omega
  | case2 b1 b2 =>
    intro h
    have hb1 : b1 < 256 := h _ (by simp)
    have hb2 : b2 < 256 := h _ (by simp)
    have h1 := charToSextet_sextetToChar (b1 / 4) (by omega)
    have h2 := charToSextet_sextetToChar (b1 % 4 * 16 + b2 / 16) (by omega)
    have h3 := charToSextet_sextetToChar (b2 % 16 * 4) (by omega)
    have hne := sextetToChar_ne_pad (b2 % 16 * 4) (by omega)
    simp [b64EncGroups, b64DecGroups, h1, h2, h3, hne]
    omega
  | case3 b1 =>
    intro h
    have hb1 : b1 < 256 := h _ (by simp)
    have h1 := charToSextet_sextetToChar (b1 / 4) (by omega)
    have h2 := charToSextet_sextetToChar (b1 % 4 * 16) (by omega)
    simp [b64EncGroups, b64DecGroups, h1, h2]
    omega
  | case4 => intro _; rfl

theorem base64DecodeBytes_byteArrayToBase64 (bs : List Nat) (h : allBytes bs) :
    base64DecodeBytes (byteArrayToBase64 bs) = some bs := by
  simpa [base64DecodeBytes, byteArrayToBase64] using b64DecGroups_encGroups bs h

theorem length_natToBeBytes (k n : Nat) : (natToBeBytes k n).length = k := by
  induction k generalizing n with
  | zero => rfl
  | succ k ih => simp [natToBeBytes, ih]

theorem allBytes_natToBeBytes (k n : Nat) : allBytes (natToBeBytes k n) := by
  induction k generalizing n with
  | zero => intro b hb; simp [natToBeBytes] at hb
  | succ k ih =>
    intro b hb
    simp only [natToBeBytes, List.mem_append, List.mem_singleton] at hb
    rcases hb with hb | hb
    · exact ih (n / 256) b hb
    · omega

theorem beBytesToNat_natToBeBytes (k n : Nat) (h : n < 256 ^ k) :
    beBytesToNat (natToBeBytes k n) = n := by
  induction k generalizing n with
  | zero => simp at h; simp [natToBeBytes, beBytesToNat, h]
  | succ k ih =>
    have hdiv : n / 256 < 256 ^ k := by
      have hp : (256 : Nat) ^ (k + 1) = 256 * 256 ^ k := pow_succ' 256 k
      exact Nat.div_lt_of_lt_mul (hp ▸ h)
    simp only [natToBeBytes, beBytesToNat, List.foldl_append, List.foldl_cons,
      List.foldl_nil]
    have := ih (n / 256) hdiv
    simp only [beBytesToNat] at this
    rw [this]
    omega

theorem u64_base64_roundtrip (n : Int) :
    (0 ≤ n → n ≤ 0xFFFFFFFFFFFFFFFF →
      ∃ s, bigIntToBase64 n = .ok s ∧ base64ToBigInt s = .ok n)
    ∧ ((n < 0 ∨ 0xFFFFFFFFFFFFFFFF < n) →
      bigIntToBase64 n = .error "value out of uint64 range") := by
  constructor
  · intro h0 h1
    set bs := natToBeBytes 8 n.toNat with hbs
    have hlen : bs.length = 8 := length_natToBeBytes 8 n.toNat
    have hall : allBytes bs := allBytes_natToBeBytes 8 n.toNat
    have hdec : b64DecGroups (byteArrayToBase64 bs).data = some bs :=
      b64DecGroups_encGroups bs hall
    refine ⟨byteArrayToBase64 bs, ?_, ?_⟩
    · simp [bigIntToBase64, hbs]
      omega
    · have hne : byteArrayToBase64 bs ≠ "" := by
        intro he
        rw [he] at hdec
        simp [b64DecGroups] at hdec
        simp [hdec] at hlen
      have hval : beBytesToNat bs = n.toNat :=
        beBytesToNat_natToBeBytes 8 n.toNat (by omega)
      simp [base64ToBigInt, hne, hdec, hlen, hval]
      omega
  · intro h
    simp [bigIntToBase64, h]

theorem u64_base64_roundtrip_witness :
    (∃ s, bigIntToBase64 3 = .ok s ∧ base64ToBigInt s = .ok 3)
    ∧ bigIntToBase64 (-2) = .error "value out of uint64 range" :=
  ⟨(u64_base64_roundtrip 3).1 (by decide) (by decide),
   (u64_base64_roundtrip (-2)).2 (by decide)⟩

/-- C7: the encodings are big-endian with the exact fixed vectors
`bigIntToBase64 1 = "AAAAAAAAAAE="` and `bigIntToBase64 (2^64-1) = "//////////8="`;
`uint32ToBase64 0xFFFFFFFF` round-trips through `base64ToUint32` back to
`0xFFFFFFFF`, and `uint32ToBase64` throws on `0x100000000`. -/
theorem codec_fixed_vectors :
    bigIntToBase64 1 = .ok "AAAAAAAAAAE="
    ∧ bigIntToBase64 (2 ^ 64 - 1) = .ok "//////////8="
    ∧ (∃ s, uint32ToBase64 0xFFFFFFFF = .ok s ∧ base64ToUint32 s = .ok 0xFFFFFFFF)
    ∧ uint32ToBase64 0x100000000 = .error "Number must be a valid uint32" := by
  exact ⟨rfl, rfl, ⟨"/////w==", rfl, rfl⟩, rfl⟩

/-- The two shapes `copyToBuffer` accepts: a string (as its list of UTF-16 code
units, the values `charCodeAt` yields) or a `Uint8Array`. -/
theorem take_set_succ (l : List Nat) (i : Nat) (v : Nat) (h : i < l.length) :
    (l.set i v).take (i + 1) = l.take i ++ [v] := by
  rw [List.set_eq_take_cons_drop v h, List.take_append_eq_append_take]
  simp [List.length_take, Nat.min_eq_left (Nat.le_of_lt h), List.take_succ_cons]

theorem copyBytesLoop_spec :
    ∀ (bs dest : List Nat) (off : Nat), off + bs.length ≤ dest.length →
      copyBytesLoop dest off bs =
        (dest.take off ++ bs.map (· % 256) ++ dest.drop (off + bs.length),
         off + bs.length) := by
  intro bs
  induction bs with
  | nil => intro dest off h; simp [copyBytesLoop]
  | cons b rest ih =>
    intro dest off h
    simp only [List.length_cons] at h
    have hoff : off < dest.length := by omega
    rw [copyBytesLoop, ih (dest.set off (b % 256)) (off + 1) (by simp; omega)]
    have hd : (dest.set off (b % 256)).drop (off + 1 + rest.length) =
        dest.drop (off + 1 + rest.length) := by
      rw [List.drop_set, if_pos (by omega)]
    rw [take_set_succ dest off (b % 256) hoff, hd]
    simp [List.append_assoc]
    constructor
    · congr 1; omega
    · omega

theorem copyStrLoop_ok :
    ∀ (us dest : List Nat) (off : Nat), off + us.length ≤ dest.length →
      copyStrLoop dest off us =
        (dest.take off ++ us.map (· % 256) ++ dest.drop (off + us.length),
         .ok (off + us.length)) := by
  intro us
  induction us with
  | nil => intro dest off h; simp [copyStrLoop]
  | cons u rest ih =>
    intro dest off h
    simp only [List.length_cons] at h
    have hoff : off < dest.length := by omega
    rw [copyStrLoop, if_neg (by omega), ih (dest.set off (u % 256)) (off + 1) (by simp; omega)]
    have hd : (dest.set off (u % 256)).drop (off + 1 + rest.length) =
        dest.drop (off + 1 + rest.length) := by
      rw [List.drop_set, if_pos (by omega)]
    rw [take_set_succ dest off (u % 256) hoff, hd]
    simp [List.append_assoc]
    constructor
    · congr 1; omega
    · omega

theorem copyStrLoop_overflow :
    ∀ (us dest : List Nat) (off : Nat), off ≤ dest.length →
      dest.length < off + us.length →
      copyStrLoop dest off us =
        (dest.take off ++ (us.take (dest.length - off)).map (· % 256),
         .error "Buffer overflow: cannot write beyond buffer length") := by
  intro us
  induction us with
  | nil => intro dest off h1 h2; simp at h2; omega
  | cons u rest ih =>
    intro dest off h1 h2
    simp only [List.length_cons] at h2
    by_cases hc : dest.length ≤ off
    · have : off = dest.length := by omega
      rw [copyStrLoop, if_pos hc]
      subst this
      simp
    · have hoff : off < dest.length := by omega
      rw [copyStrLoop, if_neg hc, ih (dest.set off (u % 256)) (off + 1) (by simp; omega) (by simp; omega)]
      rw [take_set_succ dest off (u % 256) hoff]
      have hlen : (dest.set off (u % 256)).length = dest.length := by simp
      rw [hlen]
      have htk : (u :: rest).take (dest.length - off) =
          u :: rest.take (dest.length - off - 1) := by
        cases hlo : dest.length - off with
        | zero => omega
        | succ m => simp [List.take_succ_cons]
      rw [htk]
      have : dest.length - (off + 1) = dest.length - off - 1 := by omega
      rw [this]
      simp [List.append_assoc]

theorem map_mod_self {bs : List Nat} (h : allBytes bs) : bs.map (· % 256) = bs := by
  induction bs with
  | nil => rfl
  | cons b rest ih =>
    have hb : b < 256 := h _ (by simp)
    simp [Nat.mod_eq_of_lt hb, ih (fun x hx => h x (by simp [hx]))]

/-- C9: for every destination buffer, offset with `0 ≤ offset < dest.length`, and
byte-array source with `offset + source.length ≤ dest.length`, `copyToBuffer`
returns `offset + source.length` and the destination with the source written at
`[offset, offset + source.length)` and every other byte unchanged; it throws on
an out-of-bounds offset and on insufficient remaining capacity. -/
theorem copyToBuffer_spec :
    (∀ (dest : List Nat) (off : Int) (src : List Nat),
        0 ≤ off → off < (dest.length : Int) → off.toNat + src.length ≤ dest.length →
        allBytes src →
        copyToBuffer dest off (.bytes src) =
          (dest.take off.toNat ++ src ++ dest.drop (off.toNat + src.length),
           .ok (off.toNat + src.length)))
    ∧ (∀ (dest : List Nat) (off : Int) (src : CopySource),
        off < 0 ∨ (dest.length : Int) ≤ off →
        copyToBuffer dest off src =
          (dest, .error "Offset is out of bounds for buffer length"))
    ∧ (∀ (dest : List Nat) (off : Int) (src : List Nat),
        0 ≤ off → off < (dest.length : Int) → (dest.length : Int) < off + src.length →
        copyToBuffer dest off (.bytes src) =
          (dest, .error "Buffer overflow: need more bytes than available"))
    ∧ (∀ (dest : List Nat) (off : Int) (us : List Nat),
        0 ≤ off → off < (dest.length : Int) → (dest.length : Int) < off + us.length →
        (copyToBuffer dest off (.str us)).2 =
          .error "Buffer overflow: cannot write beyond buffer length") := by
  refine ⟨?_, ?_, ?_, ?_⟩
  · intro dest off src h0 h1 h2 hall
    rw [copyToBuffer, if_neg (by omega), if_neg (by omega)]
    rw [copyBytesLoop_spec src dest off.toNat h2, map_mod_self hall]
  · intro dest off src h
    cases src with
    | str us => rw [copyToBuffer, if_pos h]
    | bytes bs => rw [copyToBuffer, if_pos h]
  · intro dest off src h0 h1 h2
    rw [copyToBuffer, if_neg (by omega), if_pos (by omega)]
  · intro dest off us h0 h1 h2
    rw [copyToBuffer, if_neg (by omega)]
    rw [copyStrLoop_overflow us dest off.toNat (by omega) (by omega)]

theorem copyToBuffer_spec_witness :
    copyToBuffer [10, 20, 30, 40] 1 (.bytes [7, 8]) = ([10, 7, 8, 40], .ok 3)
    ∧ copyToBuffer [10, 20, 30, 40] 9 (.bytes [7]) =
        ([10, 20, 30, 40], .error "Offset is out of bounds for buffer length")
    ∧ copyToBuffer [10, 20, 30, 40] 3 (.bytes [7, 8]) =
        ([10, 20, 30, 40], .error "Buffer overflow: need more bytes than available")
    ∧ (copyToBuffer [10, 20, 30, 40] 3 (.str [7, 8])).2 =
        .error "Buffer overflow: cannot write beyond buffer length" := by
  refine ⟨?_, ?_, ?_, ?_⟩
  · have h := copyToBuffer_spec.1 [10, 20, 30, 40] 1 [7, 8]
      (by decide) (by decide) (by decide) (by unfold allBytes; decide)
    simpa using h
  · exact copyToBuffer_spec.2.1 [10, 20, 30, 40] 9 (.bytes [7]) (by decide)
  · exact copyToBuffer_spec.2.2.1 [10, 20, 30, 40] 3 [7, 8] (by decide) (by decide) (by decide)
  · exact copyToBuffer_spec.2.2.2 [10, 20, 30, 40] 3 [7, 8] (by decide) (by decide) (by decide)

/-- C10: `copyToBuffer`'s capacity failure is not atomic for string sources: a
string that does not fit is written up to capacity before the throw, so the
destination is mutated despite the error; a byte-array source that does not fit
is rejected up front and the destination is returned unchanged. -/
theorem copyToBuffer_string_partial_write :
    (∀ (dest : List Nat) (off : Int) (us : List Nat),
        0 ≤ off → off < (dest.length : Int) → (dest.length : Int) < off + us.length →
        allBytes us →
        copyToBuffer dest off (.str us) =
          (dest.take off.toNat ++ us.take (dest.length - off.toNat),
           .error "Buffer overflow: cannot write beyond buffer length"))
    ∧ (∀ (dest : List Nat) (off : Int) (bs : List Nat),
        0 ≤ off → off < (dest.length : Int) → (dest.length : Int) < off + bs.length →
        (copyToBuffer dest off (.bytes bs)).1 = dest) := by
  constructor
  · intro dest off us h0 h1 h2 hall
    rw [copyToBuffer, if_neg (by omega)]
    rw [copyStrLoop_overflow us dest off.toNat (by omega) (by omega)]
    have : (us.take (dest.length - off.toNat)).map (· % 256) =
        us.take (dest.length - off.toNat) :=
      map_mod_self (fun b hb => hall b (List.mem_of_mem_take hb))
    rw [this]
  · intro dest off bs h0 h1 h2
    rw [copyToBuffer, if_neg (by omega), if_pos (by omega)]

theorem copyToBuffer_string_partial_write_witness :
    copyToBuffer [1, 2, 3] 1 (.str [7, 8, 9]) =
      ([1, 7, 8], .error "Buffer overflow: cannot write beyond buffer length")
    ∧ (copyToBuffer [1, 2, 3] 1 (.bytes [7, 8, 9])).1 = [1, 2, 3] := by
  constructor
  · have h := copyToBuffer_string_partial_write.1 [1, 2, 3] 1 [7, 8, 9]
      (by decide) (by decide) (by decide) (by unfold allBytes; decide)
    simpa using h
  · exact copyToBuffer_string_partial_write.2 [1, 2, 3] 1 [7, 8, 9]
      (by decide) (by decide) (by decide)
theorem getInstance_race_initializes_twice :
    (runTwo initialSingleton .start .start [true, false, true, false]).1.initCount = 2
    ∧ (runTwo initialSingleton .start .start [true, false, true, false]).2.1 = .done (some 2)
    ∧ (runTwo initialSingleton .start .start [true, false, true, false]).2.2 = .done (some 2) :=
  ⟨rfl, rfl, rfl⟩

/-- C2: when the capability handle is present and every provider call succeeds,
`generateKey` stores a fresh X25519 keypair (drawn at the current entropy
index), derives a 256-bit shared secret from the new private key and the
supplied remote public key, HKDF-derives (SHA-256, all-zero 32-byte salt) the TX
key with info `"client-to-server" ++ base64(pub)` and the RX key with
`"server-to-client" ++ base64(pub)`, imports both as independent AES-GCM
256-bit keys into the TX and RX slots, and returns the base64 local public
key. -/
theorem generateKey_derivation_spec (P : SubtleCrypto) (st : KeyExchangeState)
    (serverPublicKey kp baseKey tx rx : Nat) (pubRaw sharedSecret txRaw rxRaw : List Nat)
    (hsub : st.subtle = true)
    (hgen : P.generateKeyX25519 st.entropy = .ok kp)
    (hexp : P.exportKeyRaw kp = .ok pubRaw)
    (hder : P.deriveBitsX25519 kp serverPublicKey 256 = .ok sharedSecret)
    (hbk : P.importKeyHkdf sharedSecret = .ok baseKey)
    (htx : P.deriveBitsHkdf "SHA-256" (List.replicate 32 0)
        (utf8Bytes ("client-to-server" ++ byteArrayToBase64 pubRaw)) baseKey 256 = .ok txRaw)
    (himtx : P.importKeyAesGcm256 txRaw = .ok tx)
    (hrx : P.deriveBitsHkdf "SHA-256" (List.replicate 32 0)
        (utf8Bytes ("server-to-client" ++ byteArrayToBase64 pubRaw)) baseKey 256 = .ok rxRaw)
    (himrx : P.importKeyAesGcm256 rxRaw = .ok rx) :
    KeyExchange.generateKey P st serverPublicKey =
      ({ st with keypair := some kp, entropy := st.entropy + 1,
                 txKey := some tx, rxKey := some rx },
       .ok (byteArrayToBase64 pubRaw)) := by
  have hs : hkdfDefaultSalt = List.replicate 32 0 := rfl
  rw [← hs] at htx hrx
  simp [KeyExchange.generateKey, KeyExchange.hkdf, KeyExchange.importAes,
        hsub, hgen, hexp, hder, hbk, htx, himtx, hrx, himrx]

theorem generateKey_derivation_spec_witness :
    KeyExchange.generateKey mockProvider ⟨true, 0, none, none, none⟩ 5 =
      (⟨true, 1, some 0, some 2, some 2⟩,
       .ok (byteArrayToBase64 (List.replicate 32 0))) :=
  generateKey_derivation_spec mockProvider ⟨true, 0, none, none, none⟩ 5 0 7 2 2
    (List.replicate 32 0) (List.replicate 32 1) [2] [2]
    rfl rfl rfl rfl rfl rfl rfl rfl rfl

/-- C3 (counterexample): a provider failure between the TX and the RX
installation is reachable and leaves the instance holding a TX key from the new
handshake with no matching RX key: from the fresh post-init state, one
`generateKey` call whose RX-side AES import fails ends with `txKey` set and
`rxKey` still `none`. -/
theorem generateKey_partial_failure_state :
    (KeyExchange.generateKey mockFailingProvider ⟨true, 0, none, none, none⟩ 5).1.txKey = some 99
    ∧ (KeyExchange.generateKey mockFailingProvider ⟨true, 0, none, none, none⟩ 5).1.rxKey = none
    ∧ (KeyExchange.generateKey mockFailingProvider ⟨true, 0, none, none, none⟩ 5).2
        = .error (.provider "import failed") :=
  ⟨rfl, rfl, rfl⟩

/-- C3 (amended): when `generateKey` succeeds, the TX and RX keys are installed
as a pair by that same call (together with the fresh keypair and the advanced
entropy counter); `encrypt` and `decrypt` never modify the key slots (they
return no state).  Only the failure window between the two installations —
exhibited by the counterexample — breaks the pairing. -/
theorem generateKey_success_installs_pair (P : SubtleCrypto) (st : KeyExchangeState)
    (serverPublicKey : Nat) (st' : KeyExchangeState) (pub : String)
    (h : KeyExchange.generateKey P st serverPublicKey = (st', .ok pub)) :
    ∃ kp tx rx, st' = ⟨st.subtle, st.entropy + 1, some kp, some tx, some rx⟩ := by
  unfold KeyExchange.generateKey at h
  by_cases hsub : st.subtle = true
  · rw [hsub] at h
    simp only [Bool.not_true, Bool.false_eq_true, if_false] at h
    split at h
    · simp at h
    case _ kp hkp =>
      split at h
      · simp at h
      case _ pubRaw hexp =>
        split at h
        · simp at h
        case _ secret hsec =>
          split at h
          · simp at h
          case _ txRaw htx =>
            split at h
            · simp at h
            case _ tx himtx =>
              split at h
              · simp at h
              case _ rxRaw hrx =>
                split at h
                · simp at h
                case _ rx himrx =>
                  refine ⟨kp, tx, rx, ?_⟩
                  have h1 := congrArg Prod.fst h
                  simp only [] at h1
                  rw [hsub]
                  exact h1.symm
  · simp [Bool.not_eq_true] at hsub
    rw [hsub] at h
    simp at h

theorem generateKey_success_installs_pair_witness :
    ∃ kp tx rx,
      (KeyExchange.generateKey mockProvider ⟨true, 0, none, none, none⟩ 5).1 =
        (⟨true, 0 + 1, some kp, some tx, some rx⟩ : KeyExchangeState) := by
  have h := generateKey_success_installs_pair mockProvider ⟨true, 0, none, none, none⟩ 5
    (KeyExchange.generateKey mockProvider ⟨true, 0, none, none, none⟩ 5).1
    (byteArrayToBase64 (List.replicate 32 0)) (by rfl)
  simpa using h

/-- C4: `encrypt` fails with the no-encryption-key error exactly when no TX key
is installed, `decrypt` fails with the no-decryption-key error exactly when no
RX key is installed, and with an RX key present a provider failure during
decryption (AEAD authentication failure) is propagated to the caller, never
swallowed or converted into plaintext. -/
theorem encrypt_decrypt_error_spec :
    (∀ (P : SubtleCrypto) (st : KeyExchangeState) (iv pt : List Nat),
        KeyExchange.encrypt P st iv pt = .error .noEncryptionKey ↔ st.txKey = none)
    ∧ (∀ (P : SubtleCrypto) (st : KeyExchangeState) (ct nonce : List Nat),
        KeyExchange.decrypt P st ct nonce = .error .noDecryptionKey ↔ st.rxKey = none)
    ∧ (∀ (P : SubtleCrypto) (st : KeyExchangeState) (ct nonce : List Nat) (rx : Nat)
        (e : String), st.subtle = true → st.rxKey = some rx →
        P.aesGcmDecrypt rx nonce ct = .error e →
        KeyExchange.decrypt P st ct nonce = .error (.provider e)) := by
  refine ⟨?_, ?_, ?_⟩
  · intro P st iv pt
    cases htx : st.txKey with
    | none => simp [KeyExchange.encrypt, htx]
    | some tx =>
      cases hsub : st.subtle with
      | false => simp [KeyExchange.encrypt, htx, hsub]
      | true =>
        cases henc : P.aesGcmEncrypt tx iv pt with
        | error e => simp [KeyExchange.encrypt, htx, hsub, henc]
        | ok ct => simp [KeyExchange.encrypt, htx, hsub, henc]
  · intro P st ct nonce
    cases hrx : st.rxKey with
    | none => simp [KeyExchange.decrypt, hrx]
    | some rx =>
      cases hsub : st.subtle with
      | false => simp [KeyExchange.decrypt, hrx, hsub]
      | true =>
        cases hdec : P.aesGcmDecrypt rx nonce ct with
        | error e => simp [KeyExchange.decrypt, hrx, hsub, hdec]
        | ok pt => simp [KeyExchange.decrypt, hrx, hsub, hdec]
  · intro P st ct nonce rx e hsub hrx hdec
    simp [KeyExchange.decrypt, hrx, hsub, hdec]

theorem encrypt_decrypt_error_spec_witness :
    KeyExchange.encrypt mockProvider ⟨true, 0, none, none, none⟩ [1] [2] =
      .error .noEncryptionKey
    ∧ KeyExchange.decrypt mockProvider ⟨true, 0, none, none, none⟩ [1] [2] =
      .error .noDecryptionKey
    ∧ KeyExchange.decrypt mockFailingProvider ⟨true, 1, some 0, some 99, some 98⟩ [1] [2] =
      .error (.provider "OperationError") :=
  ⟨(encrypt_decrypt_error_spec.1 mockProvider ⟨true, 0, none, none, none⟩ [1] [2]).mpr rfl,
   (encrypt_decrypt_error_spec.2.1 mockProvider ⟨true, 0, none, none, none⟩ [1] [2]).mpr rfl,
   encrypt_decrypt_error_spec.2.2 mockFailingProvider ⟨true, 1, some 0, some 99, some 98⟩
     [1] [2] 98 "OperationError" rfl rfl rfl⟩

/-- C5: on an initialized instance (capability handle present, as every instance
returned by `getInstance` has), `verify` throws the server-key-not-initialized
error exactly when no remote verification key has been set, and with a remote
key set it returns the provider's boolean verdict — a cryptographically invalid
signature yields `false`, not a thrown error. -/
theorem verify_error_spec (P : SubtleCrypto) (st : SignatureState)
    (hsub : st.subtle = true) :
    (∀ (sig : List Nat) (d : DataInput),
        Signature.verify P st sig d = .error .serverKeyNotInitialized ↔
          st.serverPublicKey = none)
    ∧ (∀ (k : Nat) (sig : List Nat) (d : DataInput) (b : Bool),
        st.serverPublicKey = some k →
        P.verifyEd25519 k sig (dataBytes d) = .ok b →
        Signature.verify P st sig d = .ok b) := by
  constructor
  · intro sig d
    cases hk : st.serverPublicKey with
    | none => simp [Signature.verify, hsub, hk]
    | some k =>
      cases hv : P.verifyEd25519 k sig (dataBytes d) with
      | error e => simp [Signature.verify, hsub, hk, hv]
      | ok b => simp [Signature.verify, hsub, hk, hv]
  · intro k sig d b hk hv
    simp [Signature.verify, hsub, hk, hv]

theorem verify_error_spec_witness :
    Signature.verify mockProvider ⟨true, some 1, none⟩ [9] (.bytes [1]) =
      .error .serverKeyNotInitialized
    ∧ Signature.verify mockFailingProvider ⟨true, some 1, some 5⟩ [9] (.bytes [1]) =
      .ok false :=
  ⟨(verify_error_spec mockProvider ⟨true, some 1, none⟩ rfl).1 [9] (.bytes [1]) |>.mpr rfl,
   (verify_error_spec mockFailingProvider ⟨true, some 1, some 5⟩ rfl).2 5 [9] (.bytes [1])
     false rfl rfl⟩

/-- C8: `updateServerKey` is definitionally the re-invocation of
`initializeServerKey`: for every provider, instance state and input string both
produce identical resulting state and identical success/error outcome. -/
theorem updateServerKey_eq_initializeServerKey (P : SubtleCrypto)
    (st : SignatureState) (serverPublicKeyB64 : String) :
    Signature.updateServerKey P st serverPublicKeyB64 =
      Signature.initializeServerKey P st serverPublicKeyB64 := rfl
